import Mathlib

/-!
Verification development for a GitHub-profile email-enrichment job.

The program consists of two near-identical Python scripts (`GHES.py`, writing
to a Google Sheet, and `cloud02.py`, writing to a CSV file).  The definitions
below are a shallow embedding of the program's pure logic:

* `extract_email` embeds the Python function
  `re.findall(r'\b[A-Za-z0-9._%+-]+@[A-Za-z0-9.-]+\.[A-Z|a-z]{2,}\b', text)`
  followed by `matches[0].strip('"<>[]()')`, including Python's leftmost
  scanning, greedy backtracking and `\b` word-boundary semantics (ASCII word
  characters `[A-Za-z0-9_]`).
* `check_and_switch_key`, `get_remaining_requests`, `get_user_info`,
  `get_email_from_readme` embed the `GitHubApiHandler` methods; network
  responses are supplied by oracles, and every issued HTTP request is recorded
  in a trace together with the client used (`requests_retry_session` vs the
  bare `requests.get`).
* `ghesLoop` and `cloudLoop` embed the row-processing `main` loops of the two
  scripts; exceptions are modelled by `Except`, the wall clock and sink
  failures by oracles indexed by iteration.
-/

/-! ## Character classes of the email regex -/

/-- Python `\w` for ASCII input: `[A-Za-z0-9_]`. -/
def isWordChar (c : Char) : Bool := c.isAlpha || c.isDigit || c = '_'

/-- The class `[A-Za-z0-9._%+-]` (local part of the pattern). -/
def isC1 (c : Char) : Bool :=
  c.isAlpha || c.isDigit || c = '.' || c = '_' || c = '%' || c = '+' || c = '-'

/-- The class `[A-Za-z0-9.-]` (domain part of the pattern). -/
def isC2 (c : Char) : Bool := c.isAlpha || c.isDigit || c = '.' || c = '-'

/-- The class `[A-Z|a-z]` (top-level-domain part; note that the literal `|`
is part of the character class in the source pattern). -/
def isC3 (c : Char) : Bool := c.isAlpha || c = '|'

/-! ## Backtracking matcher for the email pattern

The pattern is `\b C1+ @ C2+ \. C3{2,} \b`.  `C1+` can only succeed with its
maximal munch (no character of `C1` is `@`), so it is a plain `takeWhile`.
The backtracking over the split of `C2+ \. C3{2,}` and over the length of
`C3{2,}` (both greedy, longest first) is explicit in `findK` and `tryEnd`. -/

/-- Greedy search for the length of the `C3{2,}` part followed by a closing
`\b`.  `afterDot` is the input just after the literal dot; candidate lengths
are tried from `run3.length` downwards (Python's greedy order).  The closing
`\b` holds iff exactly one of (last consumed char, next char) is a word
character; at end of input the next side counts as non-word. -/
def tryEnd (afterDot : List Char) : Nat → Option Nat
  | 0 => none
  | 1 => none
  | j+2 =>
    let lastWord := match afterDot[j+1]? with
      | some c => isWordChar c
      | none => false
    let nextWord := match afterDot[j+2]? with
      | some c => isWordChar c
      | none => false
    if lastWord ≠ nextWord then some (j+2) else tryEnd afterDot (j+1)

/-- Greedy search for the number `cnt` of characters consumed by `C2+`
(tried from the maximal run length downwards, Python's greedy order),
followed by the literal `.` and the `C3{2,} \b` tail.  `rest2` is the input
just after the `@`.  On success returns the matched tail
`C2-part ++ '.' :: C3-part`. -/
def findK (rest2 : List Char) : Nat → Option (List Char)
  | 0 => none
  | j+1 =>
    let attempt : Option (List Char) :=
      if rest2[j+1]? = some '.' then
        let afterDot := rest2.drop (j+2)
        let run3 := afterDot.takeWhile isC3
        match tryEnd afterDot run3.length with
        | some m => some (rest2.take (j+1) ++ '.' :: run3.take m)
        | none => none
      else none
    match attempt with
    | some r => some r
    | none => findK rest2 j

/-- Attempt to match the email pattern at the current position.  `prevWord`
says whether the character just before the position is a word character
(`false` at the start of the text); the opening `\b` holds iff it differs
from the word-ness of the first character. -/
def matchAt (prevWord : Bool) (l : List Char) : Option (List Char) :=
  match l.head? with
  | none => none
  | some c0 =>
    if prevWord = isWordChar c0 then none
    else
      match l.dropWhile isC1 with
      | [] => none
      | a :: rest2 =>
        if a = '@' then
          if (l.takeWhile isC1).isEmpty then none
          else
            match findK rest2 (rest2.takeWhile isC2).length with
            | some tail => some (l.takeWhile isC1 ++ '@' :: tail)
            | none => none
        else none

/-- Scan of `re.findall`: try to match at each position from the left,
advancing one character on failure; the first successful match is returned
(`matches[0]`). -/
def findFirstMatch : Bool → List Char → Option (List Char)
  | _, [] => none
  | pw, c :: rest =>
    match matchAt pw (c :: rest) with
    | some m => some m
    | none => findFirstMatch (isWordChar c) rest

/-- The characters stripped by `.strip('"<>[]()')`. -/
def stripSet : List Char := ['\"', '<', '>', '[', ']', '(', ')']

/-- Python `str.strip(chars)`: remove leading and trailing characters that
belong to `cs`. -/
def pythonStrip (cs : List Char) (l : List Char) : List Char :=
  ((l.dropWhile (cs.contains ·)).reverse.dropWhile (cs.contains ·)).reverse

/-- Embedding of `extract_email` (`GHES.py` lines 34-39, `cloud02.py` lines
31-36): first regex match in document order, with surrounding
quote/bracket punctuation stripped; `none` when there is no match. -/
def extract_email (text : String) : Option String :=
  match findFirstMatch false text.data with
  | some m => some (String.mk (pythonStrip stripSet m))
  | none => none

/-- `re.fullmatch` semantics of the email pattern for a standalone string
(the spec's "is of the form local@domain.tld"): some choice of the
backtracking consumes the entire input, with `\b` holding at both ends
(at the ends of a standalone string this forces the first and the last
character to be word characters). -/
def fullmatchEmail (l : List Char) : Bool :=
  match l.head? with
  | none => false
  | some c0 =>
    isWordChar c0 &&
    !(l.takeWhile isC1).isEmpty &&
    (match l.dropWhile isC1 with
     | [] => false
     | a :: rest2 =>
       a = '@' &&
       (List.range rest2.length).any (fun cnt =>
         decide (0 < cnt) && rest2[cnt]? == some '.' &&
         (rest2.take cnt).all isC2 &&
         (let tld := rest2.drop (cnt+1)
          tld.all isC3 && decide (2 ≤ tld.length) &&
          (match tld.getLast? with
           | some d => isWordChar d
           | none => false))))

/-! ## The GitHub API handler -/

/-- Python truthiness of the values `get_user_info_from_github_api` can
return: `None` and `''` are falsy, a non-empty string is truthy. -/
def pythonTruthy : Option String → Bool
  | none => false
  | some s => s ≠ ""

/-- Mutable fields of `GitHubApiHandler` (`GHES.py` lines 42-48). -/
structure HandlerState where
  apiKeys : List String
  currentKeyIndex : Nat
  requestCount : Nat
  failedAttempts : Nat
deriving Repr, DecidableEq

/-- Which HTTP client issued a request: the `requests_retry_session()`
wrapper (3 retries on connect/read failure and on status 500/502/504) or
the bare, unretried `requests.get`. -/
inductive ClientKind where
  | retrySession
  | bareGet
deriving Repr, DecidableEq

/-- One issued HTTP request: its URL and the client used. -/
structure NetCall where
  url : String
  client : ClientKind
deriving Repr, DecidableEq

def rateLimitUrl : String := "https://api.github.com/rate_limit"

def userUrl (username : String) : String :=
  "https://api.github.com/users/" ++ username

def readmeUrl (username : String) : String :=
  "https://raw.githubusercontent.com/" ++ username ++ "/" ++ username ++ "/main/README.md"

/-- Oracle for the rate-limit probe: the GET either raises (after the retry
budget) or returns a status code and the parsed `rate.remaining` field. -/
inductive ProbeResp where
  | raises
  | resp (status : Nat) (remaining : Nat)
deriving Repr, DecidableEq

/-- Oracle for the user-profile GET: raises, or returns a status code and
the payload's `email` field (`none` models both an absent key, for which
`.get('email','')` yields `''`, and a JSON `null` value; the two are
indistinguishable in the function's result since both are falsy). -/
inductive UserResp where
  | raises
  | resp (status : Nat) (email : Option String)
deriving Repr, DecidableEq

/-- Oracle for the README GET: raises, or returns a status and a body. -/
inductive ReadmeResp where
  | raises
  | resp (status : Nat) (text : String)
deriving Repr, DecidableEq

/-- The network responses available to one `get_user_info_from_github_api`
call. -/
structure RowNet where
  probe : ProbeResp
  user : UserResp
  readme : ReadmeResp
deriving Repr

/-- Embedding of `get_remaining_requests` (`GHES.py` lines 66-74): probe
`/rate_limit` through the retry session; a non-200 status is treated as 0
remaining; a raised exception propagates.  Returns the result together
with the issued call. -/
def get_remaining_requests (pr : ProbeResp) : Except Unit Nat × NetCall :=
  (match pr with
   | ProbeResp.raises => Except.error ()
   | ProbeResp.resp status remaining =>
     Except.ok (if status = 200 then remaining else 0),
   ⟨rateLimitUrl, ClientKind.retrySession⟩)

/-- Embedding of `check_and_switch_key` (`GHES.py` lines 53-64, `cloud02.py`
lines 50-61).  On `remaining < 10`: advance `current_key_index` circularly,
zero `request_count`, increment `failed_attempts`; if `failed_attempts`
then reaches 18, sleep 3900 seconds and reset `failed_attempts` to 0.
The second component of the result is the number of seconds slept. -/
def check_and_switch_key (s : HandlerState) (pr : ProbeResp) :
    Except Unit (HandlerState × Nat) × NetCall :=
  match get_remaining_requests pr with
  | (Except.error _, call) => (Except.error (), call)
  | (Except.ok remaining, call) =>
    if remaining < 10 then
      let s1 : HandlerState :=
        { s with currentKeyIndex := (s.currentKeyIndex + 1) % s.apiKeys.length,
                 requestCount := 0,
                 failedAttempts := s.failedAttempts + 1 }
      if 18 ≤ s1.failedAttempts then
        (Except.ok ({ s1 with failedAttempts := 0 }, 3900), call)
      else
        (Except.ok (s1, 0), call)
    else
      (Except.ok (s, 0), call)

/-- Python `str.split(sep)` for a one-character separator, over the
character list (empty fields are kept, as in Python). -/
def splitOnChar (sep : Char) : List Char → List (List Char)
  | [] => [[]]
  | c :: rest =>
    match splitOnChar sep rest with
    | [] => [[]]
    | h :: t => if c = sep then [] :: h :: t else (c :: h) :: t

/-- `username_or_url.split('/')[-1]` when the argument starts with the
profile-URL prefix, otherwise the argument itself (`GHES.py` lines 80-83).
`startswith` and `split` are carried out on the character list. -/
def normalizeUsername (username_or_url : String) : String :=
  if "https://github.com/".data.isPrefixOf username_or_url.data then
    String.mk ((splitOnChar '/' username_or_url.data).getLastD [])
  else
    username_or_url

/-- Embedding of `get_email_from_readme` (`GHES.py` lines 93-98): fetch the
per-user README with the bare `requests.get`; on 200 run `extract_email`
over the body, otherwise return `None`. -/
def get_email_from_readme (rr : ReadmeResp) (username : String) :
    Except Unit (Option String) × NetCall :=
  (match rr with
   | ReadmeResp.raises => Except.error ()
   | ReadmeResp.resp status text =>
     Except.ok (if status = 200 then extract_email text else none),
   ⟨readmeUrl username, ClientKind.bareGet⟩)

/-- Embedding of `get_user_info_from_github_api` (`GHES.py` lines 76-91).
Returns the result (`Except.error` models a propagating exception), the
handler state after the call (mutations made before an exception persist),
the trace of issued HTTP requests, and the seconds slept in a cooldown. -/
def get_user_info (s : HandlerState) (net : RowNet) (username_or_url : String) :
    Except Unit (Option String) × HandlerState × List NetCall × Nat :=
  match check_and_switch_key s net.probe with
  | (Except.error _, call) => (Except.error (), s, [call], 0)
  | (Except.ok (s1, slept), call) =>
    let s2 : HandlerState := { s1 with requestCount := s1.requestCount + 1 }
    let username := normalizeUsername username_or_url
    match net.user with
    | UserResp.raises =>
      (Except.error (), s2, [call, ⟨userUrl username, ClientKind.retrySession⟩], slept)
    | UserResp.resp status emailField =>
      let tr2 := [call, ⟨userUrl username, ClientKind.retrySession⟩]
      if status ≠ 200 then
        (Except.ok none, s2, tr2, slept)
      else
        -- `user_data.get('email','') or self.get_email_from_readme(...)`:
        -- the right operand is evaluated only when the field is falsy.
        if pythonTruthy emailField then
          (Except.ok emailField, s2, tr2, slept)
        else
          match get_email_from_readme net.readme username with
          | (Except.error _, rcall) => (Except.error (), s2, tr2 ++ [rcall], slept)
          | (Except.ok r, rcall) => (Except.ok r, s2, tr2 ++ [rcall], slept)

/-- Iterate `check_and_switch_key` with a probe that always reports 0
remaining (status 200); returns the final state and how many of the calls
triggered the 3900-second cooldown. -/
def rotateIter (s : HandlerState) : Nat → HandlerState × Nat
  | 0 => (s, 0)
  | n+1 =>
    let (s', cools) := rotateIter s n
    match check_and_switch_key s' (ProbeResp.resp 200 0) with
    | (Except.ok (s'', slept), _) => (s'', cools + (if slept = 0 then 0 else 1))
    | (Except.error _, _) => (s', cools)

/-! ## The driver loops -/

/-- One input row: identifier columns plus the `Status` and `Email` columns
(added as `''` when absent). -/
structure Row where
  username : String
  userId : String
  profileUrl : String
  status : String
  email : String
deriving Repr, DecidableEq

/-- Embedding of `write_to_google_sheet` (`GHES.py` lines 153-179): append
the data rows after the last populated row; an `HttpError` is logged and
re-raised to the caller. -/
def write_to_google_sheet (sheet : List (List String)) (data : List (List String))
    (raisesHttpError : Bool) : Except Unit (List (List String)) :=
  if raisesHttpError then Except.error () else Except.ok (sheet ++ data)

/-- How a driver loop ended: by the wall-clock budget or by exhausting the
rows. -/
inductive ExitKind where
  | runtimeBudget
  | completed
deriving Repr, DecidableEq

/-- Loop-carried state of `GHES.py`'s `main`: the handler, the output sheet
contents, and the trace of every HTTP request issued so far. -/
structure GhesSt where
  handler : HandlerState
  sheet : List (List String)
  trace : List NetCall
deriving Repr, DecidableEq

/-- Embedding of the row loop of `GHES.py`'s `main` (lines 213-240).
`done` holds the already-visited rows in reverse; `pending` the rows not
yet visited; `i` the iteration index used by the oracles `clock` (is the
maximum runtime exceeded at this row boundary?), `net` (network responses
for this row) and `wr` (does the sheet write raise?).  Per-row exceptions
are caught and the loop continues; the runtime check precedes the
`Status == 'Done'` skip, as in the source. -/
def ghesLoop (clock : Nat → Bool) (net : Nat → RowNet) (wr : Nat → Bool) :
    GhesSt → List Row → List Row → Nat → GhesSt × List Row × ExitKind
  | st, done, [], _ => (st, done.reverse, ExitKind.completed)
  | st, done, row :: pending, i =>
    if clock i then
      (st, done.reverse ++ row :: pending, ExitKind.runtimeBudget)
    else if row.status = "Done" then
      ghesLoop clock net wr st (row :: done) pending (i+1)
    else
      match get_user_info st.handler (net i) row.profileUrl with
      | (Except.error _, h', tr, _) =>
        -- exception during the fetch: caught at the row boundary, row untouched
        ghesLoop clock net wr { st with handler := h', trace := st.trace ++ tr }
          (row :: done) pending (i+1)
      | (Except.ok emailOpt, h', tr, _) =>
        let st1 : GhesSt := { st with handler := h', trace := st.trace ++ tr }
        if pythonTruthy emailOpt then
          let e := emailOpt.getD ""
          -- `input_df.at[...]` mutations happen before the sheet write
          let row' : Row := { row with email := e, status := "Done" }
          match write_to_google_sheet st1.sheet
              [[row.username, row.userId, row.profileUrl, e]] (wr i) with
          | Except.error _ =>
            -- the re-raised HttpError is caught at the row boundary
            ghesLoop clock net wr st1 (row' :: done) pending (i+1)
          | Except.ok sheet' =>
            ghesLoop clock net wr { st1 with sheet := sheet' }
              (row' :: done) pending (i+1)
        else
          ghesLoop clock net wr st1 (row :: done) pending (i+1)

/-- Loop-carried state of `cloud02.py`'s `main`: the handler, the request
trace, and the last successfully saved CSV contents (`none` before the
first save). -/
structure CloudSt where
  handler : HandlerState
  trace : List NetCall
  savedCsv : Option (List Row)
deriving Repr, DecidableEq

/-- Embedding of the row loop of `cloud02.py`'s `main` (lines 117-150).
Differences from `ghesLoop`: on reaching the runtime budget the whole
frame is saved to the CSV before returning; after each processed row the
whole frame is saved (inside the per-row `try`, so a raising save is
caught and the loop continues); after the loop a final save runs (inside
the outer `try`; a raise there is caught and the run just ends). -/
def cloudLoop (clock : Nat → Bool) (net : Nat → RowNet) (wr : Nat → Bool) :
    CloudSt → List Row → List Row → Nat → CloudSt × List Row × ExitKind
  | st, done, [], i =>
    let st' := if wr i then st else { st with savedCsv := some done.reverse }
    (st', done.reverse, ExitKind.completed)
  | st, done, row :: pending, i =>
    if clock i then
      let df := done.reverse ++ row :: pending
      let st' := if wr i then st else { st with savedCsv := some df }
      (st', df, ExitKind.runtimeBudget)
    else if row.status = "Done" then
      cloudLoop clock net wr st (row :: done) pending (i+1)
    else
      match get_user_info st.handler (net i) row.profileUrl with
      | (Except.error _, h', tr, _) =>
        -- exception during the fetch: caught, no save for this row
        cloudLoop clock net wr { st with handler := h', trace := st.trace ++ tr }
          (row :: done) pending (i+1)
      | (Except.ok emailOpt, h', tr, _) =>
        let st1 : CloudSt := { st with handler := h', trace := st.trace ++ tr }
        let row' : Row :=
          if pythonTruthy emailOpt then
            { row with email := emailOpt.getD "", status := "Done" }
          else
            row
        -- `input_df.to_csv(...)` runs for every processed row, raising or not
        let st2 := if wr i then st1
          else { st1 with savedCsv := some (done.reverse ++ row' :: pending) }
        cloudLoop clock net wr st2 (row' :: done) pending (i+1)

instance {ε α : Type} [DecidableEq ε] [DecidableEq α] : DecidableEq (Except ε α) :=
  fun x y =>
    match x, y with
    | Except.ok a, Except.ok b => decidable_of_iff (a = b) (by simp)
    | Except.error a, Except.error b => decidable_of_iff (a = b) (by simp)
    | Except.ok _, Except.error _ => isFalse (by simp)
    | Except.error _, Except.ok _ => isFalse (by simp)

/-! ## Claim C1: rotation and cooldown of the rate limiter -/

/-- C1: for a pool of `n ≥ 1` credentials, a `check_and_switch_key` call
whose probe reports `r < 10` advances the key index by one modulo `n` and
increments `failed_attempts`; when the incremented counter reaches the
ceiling 18 the caller sleeps 3900 seconds and the counter resets to 0.
With a pool of 2 credentials and a probe constantly reporting 0 remaining,
the index cycles `0, 1, 0, …` (index after `k` calls is `k % 2`) and
during the first 18 rotations the cooldown triggers exactly once. -/
theorem check_and_switch_key_rotation
    (keys : List String) (idx rc fa r : Nat)
    (_hn : 1 ≤ keys.length) (hr : r < 10) :
    (∃ s' slept,
      check_and_switch_key ⟨keys, idx, rc, fa⟩ (ProbeResp.resp 200 r)
        = (Except.ok (s', slept), ⟨rateLimitUrl, ClientKind.retrySession⟩) ∧
      s'.currentKeyIndex = (idx + 1) % keys.length ∧
      (fa + 1 < 18 → s'.failedAttempts = fa + 1 ∧ slept = 0) ∧
      (18 ≤ fa + 1 → s'.failedAttempts = 0 ∧ slept = 3900)) ∧
    (∀ k, k ≤ 18 →
      (rotateIter ⟨["k1", "k2"], 0, 0, 0⟩ k).1.currentKeyIndex = k % 2) ∧
    (∀ k, k < 18 → (rotateIter ⟨["k1", "k2"], 0, 0, 0⟩ k).2 = 0) ∧
    (rotateIter ⟨["k1", "k2"], 0, 0, 0⟩ 18).2 = 1 := by
  refine ⟨?_, by decide, by decide, by decide⟩
  by_cases h18 : 18 ≤ fa + 1
  · refine ⟨⟨keys, (idx + 1) % keys.length, 0, 0⟩, 3900, ?_, rfl,
      fun hlt => absurd h18 (by omega), fun _ => ⟨rfl, rfl⟩⟩
    simp [check_and_switch_key, get_remaining_requests, hr, h18]
  · refine ⟨⟨keys, (idx + 1) % keys.length, 0, fa + 1⟩, 0, ?_,
      rfl, fun _ => ⟨rfl, rfl⟩, fun hge => absurd hge h18⟩
    simp [check_and_switch_key, get_remaining_requests, hr, h18]

/-- Closed instance of `check_and_switch_key_rotation`: pool of 2 keys,
index 0, `failed_attempts` 5, probe reporting 3 remaining. -/
theorem check_and_switch_key_rotation_witness :
    ∃ s' slept,
      check_and_switch_key ⟨["a", "b"], 0, 0, 5⟩ (ProbeResp.resp 200 3)
        = (Except.ok (s', slept), ⟨rateLimitUrl, ClientKind.retrySession⟩) ∧
      s'.currentKeyIndex = (0 + 1) % (["a", "b"] : List String).length := by
  obtain ⟨⟨s', slept, h1, h2, -, -⟩, -, -, -⟩ :=
    check_and_switch_key_rotation ["a", "b"] 0 0 5 3 (by norm_num) (by norm_num)
  exact ⟨s', slept, h1, h2⟩

/-! ## Claim C4: `failed_attempts` across quota recovery -/

/-- C4 counterexample: the claim says a probe finding `remaining ≥ 10`
resets `failed_attempts`, but with `failed_attempts = 5` and a probe
reporting 5000 remaining, `check_and_switch_key` leaves the counter at 5. -/
theorem failedAttempts_not_reset_on_recovery :
    (check_and_switch_key ⟨["a", "b"], 0, 0, 5⟩ (ProbeResp.resp 200 5000)).1
      = Except.ok (⟨["a", "b"], 0, 0, 5⟩, 0) ∧
    (HandlerState.mk ["a", "b"] 0 0 5).failedAttempts = 5 := by decide

/-- C4 amended: when the probe reports sufficient quota (`10 ≤ r`) the
handler state — `failed_attempts` included — is left entirely unchanged
and no cooldown happens; consequently rotations separated by a quota
recovery still accumulate towards the ceiling, as the concrete
rotate / recover / rotate sequence taking `failed_attempts` from 3 to 5
shows. -/
theorem check_and_switch_key_recovery_no_reset
    (s : HandlerState) (r : Nat) (hr : 10 ≤ r) :
    (check_and_switch_key s (ProbeResp.resp 200 r)).1 = Except.ok (s, 0) ∧
    (check_and_switch_key ⟨["a", "b"], 0, 0, 3⟩ (ProbeResp.resp 200 0)).1
      = Except.ok (⟨["a", "b"], 1, 0, 4⟩, 0) ∧
    (check_and_switch_key ⟨["a", "b"], 1, 0, 4⟩ (ProbeResp.resp 200 100)).1
      = Except.ok (⟨["a", "b"], 1, 0, 4⟩, 0) ∧
    (check_and_switch_key ⟨["a", "b"], 1, 0, 4⟩ (ProbeResp.resp 200 0)).1
      = Except.ok (⟨["a", "b"], 0, 0, 5⟩, 0) := by
  refine ⟨?_, by decide, by decide, by decide⟩
  simp [check_and_switch_key, get_remaining_requests, Nat.not_lt.mpr hr]

/-- Closed instance of `check_and_switch_key_recovery_no_reset` at
`r = 100`. -/
theorem check_and_switch_key_recovery_no_reset_witness :
    (check_and_switch_key ⟨["x"], 0, 7, 9⟩ (ProbeResp.resp 200 100)).1
      = Except.ok (⟨["x"], 0, 7, 9⟩, 0) :=
  (check_and_switch_key_recovery_no_reset ⟨["x"], 0, 7, 9⟩ 100 (by norm_num)).1

/-! ## Claims C5 and C3: the profile fetcher and its network calls -/

/-- A probe that answers (with any status) never makes
`check_and_switch_key` raise. -/
lemma check_and_switch_key_resp_ok (s : HandlerState) (pst prem : Nat) :
    ∃ p, check_and_switch_key s (ProbeResp.resp pst prem)
      = (Except.ok p, ⟨rateLimitUrl, ClientKind.retrySession⟩) := by
  unfold check_and_switch_key get_remaining_requests
  dsimp only
  split_ifs <;> exact ⟨_, rfl⟩

/-- C5: given that the quota probe answers, `get_user_info_from_github_api`
returns `None` without raising when the user-profile status is not 200;
the payload's email field when it is present and non-empty; and otherwise
the result of running the email extractor over the README body — which is
`None` when the README fetch is not a 200 either. -/
theorem get_user_info_profile_fetcher
    (s : HandlerState) (net : RowNet) (u : String) (pst prem : Nat)
    (hprobe : net.probe = ProbeResp.resp pst prem) :
    (∀ ust e, net.user = UserResp.resp ust e → ust ≠ 200 →
      (get_user_info s net u).1 = Except.ok none) ∧
    (∀ e, net.user = UserResp.resp 200 (some e) → e ≠ "" →
      (get_user_info s net u).1 = Except.ok (some e)) ∧
    (∀ e rt, net.user = UserResp.resp 200 e → pythonTruthy e = false →
      net.readme = ReadmeResp.resp 200 rt →
      (get_user_info s net u).1 = Except.ok (extract_email rt)) ∧
    (∀ e rs rt, net.user = UserResp.resp 200 e → pythonTruthy e = false →
      net.readme = ReadmeResp.resp rs rt → rs ≠ 200 →
      (get_user_info s net u).1 = Except.ok none) := by
  obtain ⟨⟨s1, slept⟩, hcs⟩ := check_and_switch_key_resp_ok s pst prem
  refine ⟨?_, ?_, ?_, ?_⟩
  · intro ust e huser hst
    simp [get_user_info, hprobe, hcs, huser, hst]
  · intro e huser he
    simp [get_user_info, hprobe, hcs, huser, pythonTruthy, he]
  · intro e rt huser ht hreadme
    simp [get_user_info, hprobe, hcs, huser, ht, hreadme, get_email_from_readme]
  · intro e rs rt huser ht hreadme hrs
    simp [get_user_info, hprobe, hcs, huser, ht, hreadme, hrs, get_email_from_readme]

/-- Closed instance of `get_user_info_profile_fetcher`: empty profile email
field, README containing an address, so the fetcher returns the extractor's
result on the README body. -/
theorem get_user_info_profile_fetcher_witness :
    (get_user_info ⟨["k"], 0, 0, 0⟩
        ⟨ProbeResp.resp 200 50, UserResp.resp 200 (some ""),
         ReadmeResp.resp 200 "mail bob@corp.example soon"⟩ "bob").1
      = Except.ok (extract_email "mail bob@corp.example soon") :=
  (get_user_info_profile_fetcher ⟨["k"], 0, 0, 0⟩
      ⟨ProbeResp.resp 200 50, UserResp.resp 200 (some ""),
       ReadmeResp.resp 200 "mail bob@corp.example soon"⟩ "bob" 200 50 rfl).2.2.1
    (some "") "mail bob@corp.example soon" rfl (by decide) rfl

/-- C3 counterexample: resolving an email for "alice" with an empty profile
email field issues the secondary README request through the bare,
unretried `requests.get`, not through the retry session: the third call of
the trace uses `ClientKind.bareGet`. -/
theorem readme_fetch_uses_bare_get :
    (get_user_info ⟨["k"], 0, 0, 0⟩
        ⟨ProbeResp.resp 200 5000, UserResp.resp 200 (some ""),
         ReadmeResp.resp 200 "hi alice@example.com"⟩ "alice").2.2.1
      = [⟨rateLimitUrl, ClientKind.retrySession⟩,
         ⟨userUrl "alice", ClientKind.retrySession⟩,
         ⟨readmeUrl "alice", ClientKind.bareGet⟩] ∧
    ∃ c ∈ (get_user_info ⟨["k"], 0, 0, 0⟩
        ⟨ProbeResp.resp 200 5000, UserResp.resp 200 (some ""),
         ReadmeResp.resp 200 "hi alice@example.com"⟩ "alice").2.2.1,
      c.client = ClientKind.bareGet := by decide

/-- C3 amended: every network call of an email resolution goes through the
retry session except the secondary README fetch, which is a bare
`requests.get`: the trace is always the probe call, optionally followed by
the user-profile call (both through the retry session), optionally
followed by the README call through the bare client. -/
theorem get_user_info_trace_clients (s : HandlerState) (net : RowNet) (u : String) :
    (get_user_info s net u).2.2.1 = [⟨rateLimitUrl, ClientKind.retrySession⟩] ∨
    (get_user_info s net u).2.2.1
      = [⟨rateLimitUrl, ClientKind.retrySession⟩,
         ⟨userUrl (normalizeUsername u), ClientKind.retrySession⟩] ∨
    (get_user_info s net u).2.2.1
      = [⟨rateLimitUrl, ClientKind.retrySession⟩,
         ⟨userUrl (normalizeUsername u), ClientKind.retrySession⟩,
         ⟨readmeUrl (normalizeUsername u), ClientKind.bareGet⟩] := by
  obtain ⟨probe, user, readme⟩ := net
  cases probe with
  | raises =>
    left
    simp [get_user_info, check_and_switch_key, get_remaining_requests]
  | resp pst prem =>
    obtain ⟨⟨s1, slept⟩, hcs⟩ := check_and_switch_key_resp_ok s pst prem
    cases user with
    | raises =>
      right; left
      simp [get_user_info, hcs]
    | resp ust e =>
      by_cases hst : ust ≠ 200
      · right; left
        simp [get_user_info, hcs, hst]
      · by_cases ht : pythonTruthy e
        · right; left
          simp [get_user_info, hcs, hst, ht]
        · cases readme with
          | raises =>
            right; right
            simp [get_user_info, hcs, hst, ht, get_email_from_readme]
          | resp rs rt =>
            right; right
            simp [get_user_info, hcs, hst, ht, get_email_from_readme]

/-! ## Claim C8: all-done runs are no-ops -/

/-- Rows marked `Done` are skipped without touching the loop state. -/
lemma ghesLoop_all_done (clock : Nat → Bool) (net : Nat → RowNet) (wr : Nat → Bool)
    (st : GhesSt) (done pending : List Row) (i : Nat)
    (hdone : ∀ r ∈ pending, r.status = "Done") :
    (ghesLoop clock net wr st done pending i).1 = st ∧
    (ghesLoop clock net wr st done pending i).2.1 = done.reverse ++ pending := by
  induction pending generalizing done i with
  | nil => simp [ghesLoop]
  | cons row rest ih =>
    rw [ghesLoop]
    by_cases hc : clock i
    · simp [hc]
    · have hr : row.status = "Done" := hdone row (List.mem_cons_self _ _)
      have h2 := ih (row :: done) (i+1) (fun r h => hdone r (List.mem_cons_of_mem _ h))
      simp only [hc, if_false, hr, if_true, Bool.false_eq_true, if_neg]
      refine ⟨h2.1, ?_⟩
      rw [h2.2]
      simp

/-- Rows marked `Done` are skipped by `cloudLoop` as well; only the final
CSV save touches the state. -/
lemma cloudLoop_all_done (clock : Nat → Bool) (net : Nat → RowNet) (wr : Nat → Bool)
    (st : CloudSt) (done pending : List Row) (i : Nat)
    (hdone : ∀ r ∈ pending, r.status = "Done") :
    (cloudLoop clock net wr st done pending i).1.handler = st.handler ∧
    (cloudLoop clock net wr st done pending i).1.trace = st.trace ∧
    (cloudLoop clock net wr st done pending i).2.1 = done.reverse ++ pending := by
  induction pending generalizing done i st with
  | nil =>
    by_cases hw : wr i <;> simp [cloudLoop, hw]
  | cons row rest ih =>
    rw [cloudLoop]
    by_cases hc : clock i
    · by_cases hw : wr i <;> simp [hc, hw]
    · have hr : row.status = "Done" := hdone row (List.mem_cons_self _ _)
      have h2 := ih st (row :: done) (i+1) (fun r h => hdone r (List.mem_cons_of_mem _ h))
      simp only [hc, if_false, hr, if_true, Bool.false_eq_true, if_neg]
      refine ⟨h2.1, h2.2.1, ?_⟩
      rw [h2.2.2]
      simp

/-- C8: if every input row is already marked `Done`, a run of either driver
loop performs zero network calls (the request trace does not grow, and no
handler mutation happens) and changes no row: the returned frame is exactly
the input frame. -/
theorem all_done_run_is_noop (clock : Nat → Bool) (net : Nat → RowNet) (wr : Nat → Bool)
    (stG : GhesSt) (stC : CloudSt) (rows : List Row)
    (hdone : ∀ r ∈ rows, r.status = "Done") :
    (ghesLoop clock net wr stG [] rows 0).1 = stG ∧
    (ghesLoop clock net wr stG [] rows 0).2.1 = rows ∧
    (cloudLoop clock net wr stC [] rows 0).1.handler = stC.handler ∧
    (cloudLoop clock net wr stC [] rows 0).1.trace = stC.trace ∧
    (cloudLoop clock net wr stC [] rows 0).2.1 = rows := by
  have hg := ghesLoop_all_done clock net wr stG [] rows 0 hdone
  have hc := cloudLoop_all_done clock net wr stC [] rows 0 hdone
  refine ⟨hg.1, ?_, hc.1, hc.2.1, ?_⟩
  · simpa using hg.2
  · simpa using hc.2.2

/-- Closed instance of `all_done_run_is_noop` over two `Done` rows. -/
theorem all_done_run_is_noop_witness :
    (ghesLoop (fun _ => false)
        (fun _ => ⟨ProbeResp.resp 200 0, UserResp.raises, ReadmeResp.raises⟩)
        (fun _ => false) ⟨⟨["k"], 0, 0, 0⟩, [], []⟩ []
        [⟨"a", "1", "a", "Done", "a@b.cd"⟩, ⟨"b", "2", "b", "Done", ""⟩] 0).1
      = ⟨⟨["k"], 0, 0, 0⟩, [], []⟩ ∧
    (ghesLoop (fun _ => false)
        (fun _ => ⟨ProbeResp.resp 200 0, UserResp.raises, ReadmeResp.raises⟩)
        (fun _ => false) ⟨⟨["k"], 0, 0, 0⟩, [], []⟩ []
        [⟨"a", "1", "a", "Done", "a@b.cd"⟩, ⟨"b", "2", "b", "Done", ""⟩] 0).2.1
      = [⟨"a", "1", "a", "Done", "a@b.cd"⟩, ⟨"b", "2", "b", "Done", ""⟩] := by
  have h := all_done_run_is_noop (fun _ => false)
    (fun _ => ⟨ProbeResp.resp 200 0, UserResp.raises, ReadmeResp.raises⟩)
    (fun _ => false) ⟨⟨["k"], 0, 0, 0⟩, [], []⟩ ⟨⟨["k"], 0, 0, 0⟩, [], none⟩
    [⟨"a", "1", "a", "Done", "a@b.cd"⟩, ⟨"b", "2", "b", "Done", ""⟩] (by decide)
  exact ⟨h.1, h.2.1⟩

/-! ## Claim C9: the wall-clock budget check at row boundaries -/

/-- C9: when the elapsed-time check at a row boundary reports the maximum
runtime exceeded, both loops terminate gracefully (`runtimeBudget`),
processing no further row and issuing no further network call; `cloudLoop`
first saves the whole accumulated frame to the CSV (when that save does
not itself raise), `ghesLoop` — whose sink was written row by row — simply
returns.  Instantiating `done := []` gives exit before any row. -/
theorem runtime_budget_stops_loop (clock : Nat → Bool) (net : Nat → RowNet)
    (wr : Nat → Bool) (stG : GhesSt) (stC : CloudSt)
    (done pending : List Row) (row : Row) (i : Nat)
    (hclock : clock i = true) :
    ghesLoop clock net wr stG done (row :: pending) i
      = (stG, done.reverse ++ row :: pending, ExitKind.runtimeBudget) ∧
    (cloudLoop clock net wr stC done (row :: pending) i).1.handler = stC.handler ∧
    (cloudLoop clock net wr stC done (row :: pending) i).1.trace = stC.trace ∧
    (cloudLoop clock net wr stC done (row :: pending) i).2.1
      = done.reverse ++ row :: pending ∧
    (cloudLoop clock net wr stC done (row :: pending) i).2.2
      = ExitKind.runtimeBudget ∧
    (wr i = false →
      (cloudLoop clock net wr stC done (row :: pending) i).1.savedCsv
        = some (done.reverse ++ row :: pending)) := by
  rw [ghesLoop, cloudLoop]
  by_cases hw : wr i <;> simp [hclock, hw]

/-- Closed instance of `runtime_budget_stops_loop`: the budget is already
exceeded at the first check, so the loop exits before processing any of the
pending rows, and the CSV variant saves the untouched frame. -/
theorem runtime_budget_stops_loop_witness :
    ghesLoop (fun _ => true)
        (fun _ => ⟨ProbeResp.resp 200 0, UserResp.raises, ReadmeResp.raises⟩)
        (fun _ => false) ⟨⟨["k"], 0, 0, 0⟩, [], []⟩ []
        [⟨"p", "1", "p", "", ""⟩] 0
      = (⟨⟨["k"], 0, 0, 0⟩, [], []⟩, [⟨"p", "1", "p", "", ""⟩],
         ExitKind.runtimeBudget) ∧
    (cloudLoop (fun _ => true)
        (fun _ => ⟨ProbeResp.resp 200 0, UserResp.raises, ReadmeResp.raises⟩)
        (fun _ => false) ⟨⟨["k"], 0, 0, 0⟩, [], none⟩ []
        [⟨"p", "1", "p", "", ""⟩] 0).1.savedCsv
      = some [⟨"p", "1", "p", "", ""⟩] := by
  have h := runtime_budget_stops_loop (fun _ => true)
    (fun _ => ⟨ProbeResp.resp 200 0, UserResp.raises, ReadmeResp.raises⟩)
    (fun _ => false) ⟨⟨["k"], 0, 0, 0⟩, [], []⟩ ⟨⟨["k"], 0, 0, 0⟩, [], none⟩
    [] [] ⟨"p", "1", "p", "", ""⟩ 0 rfl
  exact ⟨h.1, h.2.2.2.2.2 rfl⟩

/-! ## Claim C2: sink write errors -/

/-- Scenario for C2: two pending rows, every fetch finds an email, and the
sheet write raises exactly at the first row. -/
def c2run : GhesSt × List Row × ExitKind :=
  ghesLoop (fun _ => false)
    (fun _ => ⟨ProbeResp.resp 200 5000, UserResp.resp 200 (some "e@x.io"),
               ReadmeResp.resp 200 ""⟩)
    (fun i => decide (i = 0)) ⟨⟨["k"], 0, 0, 0⟩, [], []⟩ []
    [⟨"u0", "i0", "u0", "", ""⟩, ⟨"u1", "i1", "u1", "", ""⟩] 0

/-- C2 counterexample: the sheet-write error at row 0 is re-raised by
`write_to_google_sheet` but the run does NOT abort — the second row is
still processed (it ends up `Done` and its data is written to the sheet),
and the loop runs to completion. -/
theorem sheet_write_error_does_not_abort_run :
    c2run.2.1 = [⟨"u0", "i0", "u0", "Done", "e@x.io"⟩,
                 ⟨"u1", "i1", "u1", "Done", "e@x.io"⟩] ∧
    c2run.1.sheet = [["u1", "i1", "u1", "e@x.io"]] ∧
    c2run.2.2 = ExitKind.completed ∧
    write_to_google_sheet [] [["u0", "i0", "u0", "e@x.io"]] true
      = Except.error () := by decide

/-- C2 amended: a sink write error is logged and re-raised by
`write_to_google_sheet`, but the per-row exception handler in `main`
catches it at the row boundary: the loop continues with the remaining rows
(the run does not abort), the sheet keeps its previous contents, and the
failed row stays marked `Done` in memory. -/
theorem sheet_write_error_caught_at_row_boundary
    (clock : Nat → Bool) (net : Nat → RowNet) (wr : Nat → Bool)
    (st : GhesSt) (done pending : List Row) (row : Row) (i : Nat)
    (hc : clock i = false) (hs : row.status ≠ "Done")
    (e : String) (h' : HandlerState) (tr : List NetCall) (n : Nat)
    (hfetch : get_user_info st.handler (net i) row.profileUrl
      = (Except.ok (some e), h', tr, n))
    (he : e ≠ "") (hwr : wr i = true) :
    write_to_google_sheet st.sheet
        [[row.username, row.userId, row.profileUrl, e]] (wr i)
      = Except.error () ∧
    ghesLoop clock net wr st done (row :: pending) i
      = ghesLoop clock net wr { st with handler := h', trace := st.trace ++ tr }
          ({ row with email := e, status := "Done" } :: done) pending (i+1) := by
  constructor
  · simp [write_to_google_sheet, hwr]
  · rw [ghesLoop]
    simp [hc, hs, hfetch, pythonTruthy, he, write_to_google_sheet, hwr]

/-- Closed instance of `sheet_write_error_caught_at_row_boundary`. -/
theorem sheet_write_error_caught_at_row_boundary_witness :
    write_to_google_sheet [] [["u0", "i0", "u0", "e@x.io"]] true
      = Except.error () ∧
    ghesLoop (fun _ => false)
        (fun _ => ⟨ProbeResp.resp 200 5000, UserResp.resp 200 (some "e@x.io"),
                   ReadmeResp.resp 200 ""⟩)
        (fun _ => true) ⟨⟨["k"], 0, 0, 0⟩, [], []⟩ []
        [⟨"u0", "i0", "u0", "", ""⟩] 0
      = ghesLoop (fun _ => false)
          (fun _ => ⟨ProbeResp.resp 200 5000, UserResp.resp 200 (some "e@x.io"),
                     ReadmeResp.resp 200 ""⟩)
          (fun _ => true)
          ⟨⟨["k"], 0, 1, 0⟩, [],
           [⟨rateLimitUrl, ClientKind.retrySession⟩,
            ⟨userUrl "u0", ClientKind.retrySession⟩]⟩
          [⟨"u0", "i0", "u0", "Done", "e@x.io"⟩] [] 1 := by
  exact sheet_write_error_caught_at_row_boundary (fun _ => false)
    (fun _ => ⟨ProbeResp.resp 200 5000, UserResp.resp 200 (some "e@x.io"),
               ReadmeResp.resp 200 ""⟩)
    (fun _ => true) ⟨⟨["k"], 0, 0, 0⟩, [], []⟩ [] []
    ⟨"u0", "i0", "u0", "", ""⟩ 0 rfl (by decide) "e@x.io"
    ⟨["k"], 0, 1, 0⟩
    [⟨rateLimitUrl, ClientKind.retrySession⟩, ⟨userUrl "u0", ClientKind.retrySession⟩]
    0 (by decide) (by decide) rfl

/-! ## Claim C7: row-level failures -/

/-- Scenario for C7: one pending row whose fetch succeeds with an email but
whose sheet write raises. -/
def c7run : GhesSt × List Row × ExitKind :=
  ghesLoop (fun _ => false)
    (fun _ => ⟨ProbeResp.resp 200 5000, UserResp.resp 200 (some "z@q.rs"),
               ReadmeResp.resp 200 ""⟩)
    (fun _ => true) ⟨⟨["k"], 0, 0, 0⟩, [], []⟩ []
    [⟨"v0", "j0", "v0", "", ""⟩] 0

/-- C7 counterexample: a row-level failure CAN leave the row partially
updated and marked done — when the sheet write raises after a successful
fetch, the exception is caught and the loop continues, but the row's
`Status` has already been set to `Done` and its `Email` filled in, even
though nothing reached the sink. -/
theorem row_failure_can_leave_row_marked_done :
    c7run.2.1 = [⟨"v0", "j0", "v0", "Done", "z@q.rs"⟩] ∧
    c7run.1.sheet = [] ∧
    c7run.2.2 = ExitKind.completed := by decide

/-- C7 amended: a per-row exception is caught at the row boundary and the
loop continues with the next row without aborting the run.  When the
exception comes from the fetch itself, the row's `Status` and `Email` are
left unchanged (still pending and retryable); but an exception from the
sink write happens after the row was already marked `Done` with the email
set, and those in-memory updates remain. -/
theorem row_exception_caught_and_loop_continues
    (clock : Nat → Bool) (net : Nat → RowNet) (wr : Nat → Bool)
    (st : GhesSt) (done pending : List Row) (row : Row) (i : Nat)
    (hc : clock i = false) (hs : row.status ≠ "Done") :
    (∀ h' tr n,
      get_user_info st.handler (net i) row.profileUrl = (Except.error (), h', tr, n) →
      ghesLoop clock net wr st done (row :: pending) i
        = ghesLoop clock net wr { st with handler := h', trace := st.trace ++ tr }
            (row :: done) pending (i+1)) ∧
    (∀ e h' tr n,
      get_user_info st.handler (net i) row.profileUrl = (Except.ok (some e), h', tr, n) →
      e ≠ "" → wr i = true →
      ghesLoop clock net wr st done (row :: pending) i
        = ghesLoop clock net wr { st with handler := h', trace := st.trace ++ tr }
            ({ row with email := e, status := "Done" } :: done) pending (i+1)) := by
  constructor
  · intro h' tr n hfetch
    rw [ghesLoop]
    simp [hc, hs, hfetch]
  · intro e h' tr n hfetch he hwr
    rw [ghesLoop]
    simp [hc, hs, hfetch, pythonTruthy, he, write_to_google_sheet, hwr]

/-- Closed instance of `row_exception_caught_and_loop_continues`: the
user-profile request raises, the row is requeued untouched. -/
theorem row_exception_caught_and_loop_continues_witness :
    ghesLoop (fun _ => false)
        (fun _ => ⟨ProbeResp.resp 200 5000, UserResp.raises, ReadmeResp.raises⟩)
        (fun _ => false) ⟨⟨["k"], 0, 0, 0⟩, [], []⟩ []
        [⟨"v0", "j0", "v0", "", ""⟩] 0
      = ghesLoop (fun _ => false)
          (fun _ => ⟨ProbeResp.resp 200 5000, UserResp.raises, ReadmeResp.raises⟩)
          (fun _ => false)
          ⟨⟨["k"], 0, 1, 0⟩, [],
           [⟨rateLimitUrl, ClientKind.retrySession⟩,
            ⟨userUrl "v0", ClientKind.retrySession⟩]⟩
          [⟨"v0", "j0", "v0", "", ""⟩] [] 1 := by
  exact (row_exception_caught_and_loop_continues (fun _ => false)
    (fun _ => ⟨ProbeResp.resp 200 5000, UserResp.raises, ReadmeResp.raises⟩)
    (fun _ => false) ⟨⟨["k"], 0, 0, 0⟩, [], []⟩ [] []
    ⟨"v0", "j0", "v0", "", ""⟩ 0 rfl (by decide)).1
    ⟨["k"], 0, 1, 0⟩
    [⟨rateLimitUrl, ClientKind.retrySession⟩, ⟨userUrl "v0", ClientKind.retrySession⟩]
    0 (by decide)

/-! ## Claim C6: the email extractor -/

/-- The head of a `dropWhile` is an element of the original list. -/
lemma mem_of_dropWhile_cons {p : Char → Bool} {l r : List Char} {a : Char}
    (h : l.dropWhile p = a :: r) : a ∈ l := by
  have ha : a ∈ l.dropWhile p := by rw [h]; exact List.mem_cons_self _ _
  exact (List.dropWhile_sublist p).subset ha

/-- A successful `matchAt` needs a literal `@` in its input. -/
lemma matchAt_mem_at {pw : Bool} {l m : List Char} (h : matchAt pw l = some m) :
    '@' ∈ l := by
  unfold matchAt at h
  split at h
  · exact absurd h (by simp)
  · split at h
    · exact absurd h (by simp)
    · split at h
      · exact absurd h (by simp)
      next a r2 hd =>
        split at h
        next ha => exact ha ▸ mem_of_dropWhile_cons hd
        next ha => exact absurd h (by simp)

/-- A successful scan needs a literal `@` in the text. -/
lemma findFirstMatch_mem_at : ∀ (pw : Bool) (l m : List Char),
    findFirstMatch pw l = some m → '@' ∈ l := by
  intro pw l
  induction l generalizing pw with
  | nil => intro m h; simp [findFirstMatch] at h
  | cons c rest ih =>
    intro m h
    rw [findFirstMatch] at h
    cases hm : matchAt pw (c :: rest) with
    | some m' => exact matchAt_mem_at hm
    | none => rw [hm] at h; exact List.mem_cons_of_mem _ (ih _ _ h)

/-- `matchAt` fails whenever the first character after the `C1`-run is not
an `@`. -/
lemma matchAt_none_of_head_dropWhile (pw : Bool) (l : List Char)
    (h : ∀ a r, l.dropWhile isC1 = a :: r → a ≠ '@') : matchAt pw l = none := by
  unfold matchAt
  split
  · rfl
  · split
    · rfl
    · split
      · rfl
      next a r2 hd => rw [if_neg (h a r2 hd)]

/-- The scanner advances one position past a failed `matchAt`. -/
lemma findFirstMatch_cons_none (pw : Bool) (c : Char) (l : List Char)
    (h : matchAt pw (c :: l) = none) :
    findFirstMatch pw (c :: l) = findFirstMatch (isWordChar c) l := by
  rw [findFirstMatch, h]

/-- Scanning the reference text with anything appended: the match at the
`J` position is found and is insensitive to the appended tail, because
every lookahead of the matcher stops inside the reference text (variant
with a preceding non-word character). -/
lemma core_scan_false (suf : List Char) :
    findFirstMatch false ("contact: Jane.Doe+test@sub.example.co <end>".data ++ suf)
      = some "Jane.Doe+test@sub.example.co".data := rfl

/-- Variant of `core_scan_false` with a preceding word character. -/
lemma core_scan_true (suf : List Char) :
    findFirstMatch true ("contact: Jane.Doe+test@sub.example.co <end>".data ++ suf)
      = some "Jane.Doe+test@sub.example.co".data := rfl

/-- Any text that contains the reference sentence, with no `@` before it,
scans to the reference address. -/
lemma pre_core_scan (suf : List Char) :
    ∀ (pre : List Char) (pw : Bool), '@' ∉ pre →
      findFirstMatch pw (pre ++ ("contact: Jane.Doe+test@sub.example.co <end>".data ++ suf))
        = some "Jane.Doe+test@sub.example.co".data := by
  intro pre
  induction pre with
  | nil =>
    intro pw _
    rw [List.nil_append]
    cases pw
    · exact core_scan_false suf
    · exact core_scan_true suf
  | cons c pre' ih =>
    intro pw hpre
    have hpre' : '@' ∉ pre' := fun h => hpre (List.mem_cons_of_mem _ h)
    have hsplit : "contact: Jane.Doe+test@sub.example.co <end>".data ++ suf
        = "contact".data
          ++ (':' :: (" Jane.Doe+test@sub.example.co <end>".data ++ suf)) := rfl
    have hfail : matchAt pw
        ((c :: pre') ++ ("contact: Jane.Doe+test@sub.example.co <end>".data ++ suf))
        = none := by
      apply matchAt_none_of_head_dropWhile
      intro a r hd
      rw [List.dropWhile_append] at hd
      split at hd
      · rw [hsplit,
          List.dropWhile_append_of_pos (by decide : ∀ x ∈ "contact".data, isC1 x),
          List.dropWhile_cons_of_neg (by decide : ¬ isC1 ':' = true)] at hd
        cases hd
        decide
      · cases hdw : (c :: pre').dropWhile isC1 with
        | nil => simp [hdw] at *
        | cons b t =>
          rw [hdw, List.cons_append] at hd
          cases hd
          exact fun hb => hpre (hb ▸ mem_of_dropWhile_cons hdw)
    rw [List.cons_append, findFirstMatch_cons_none _ _ _ (List.cons_append c pre' _ ▸ hfail)]
    exact ih (isWordChar c) hpre'

/-- C6: behaviour of `extract_email`.  (1) For any text with no `@`
character the extractor returns nothing.  (2) Any text containing
`"contact: Jane.Doe+test@sub.example.co <end>"` with no `@` (hence no
possible match) before it extracts `"Jane.Doe+test@sub.example.co"`.
(3) In general the extractor returns exactly the first match of the scan
in document order with the surrounding quote/bracket punctuation stripped,
and it is a total function (it never raises). -/
theorem extract_email_spec :
    (∀ t : String, '@' ∉ t.data → extract_email t = none) ∧
    (∀ pre suf : String, '@' ∉ pre.data →
      extract_email (pre ++ "contact: Jane.Doe+test@sub.example.co <end>" ++ suf)
        = some "Jane.Doe+test@sub.example.co") ∧
    (∀ t : String, extract_email t
      = (findFirstMatch false t.data).map fun m => String.mk (pythonStrip stripSet m)) := by
  refine ⟨?_, ?_, ?_⟩
  · intro t h
    unfold extract_email
    cases hm : findFirstMatch false t.data with
    | none => rfl
    | some m => exact absurd (findFirstMatch_mem_at _ _ _ hm) h
  · intro pre suf hpre
    unfold extract_email
    have hdata : (pre ++ "contact: Jane.Doe+test@sub.example.co <end>" ++ suf).data
        = pre.data ++ ("contact: Jane.Doe+test@sub.example.co <end>".data ++ suf.data) := by
      simp
    rw [hdata, pre_core_scan suf.data pre.data false hpre]
    rfl
  · intro t
    unfold extract_email
    cases findFirstMatch false t.data <;> rfl

/-- Closed instance of `extract_email_spec`: a text with no `@`, and the
reference sentence embedded between a prefix and a suffix. -/
theorem extract_email_spec_witness :
    extract_email "phone only 555" = none ∧
    extract_email ("greetings: " ++ "contact: Jane.Doe+test@sub.example.co <end>"
        ++ " bye a@b.cc")
      = some "Jane.Doe+test@sub.example.co" :=
  ⟨extract_email_spec.1 "phone only 555" (by decide),
   extract_email_spec.2.1 "greetings: " " bye a@b.cc" (by decide)⟩

/-! ## Claim C10: the relationship between stripping and the raw match -/

/-- `tryEnd` only returns lengths between 2 and its starting bound. -/
lemma tryEnd_bounds : ∀ (afterDot : List Char) (n m : Nat),
    tryEnd afterDot n = some m → 2 ≤ m ∧ m ≤ n := by
  intro afterDot n
  induction n using Nat.strong_induction_on with
  | _ n ih =>
    match n with
    | 0 => intro m h; simp [tryEnd] at h
    | 1 => intro m h; simp [tryEnd] at h
    | j+2 =>
      intro m h
      simp only [tryEnd] at h
      split at h
      · cases h; omega
      · have := ih (j+1) (by omega) m h
        omega

/-- Structure of a successful `findK` result: some `C2`-prefix of length
between 1 and the bound, a dot, and a prefix of the maximal `C3`-run after
the dot. -/
lemma findK_shape : ∀ (rest2 : List Char) (k : Nat) (tail : List Char),
    findK rest2 k = some tail →
    ∃ cnt m, 1 ≤ cnt ∧ cnt ≤ k ∧
      m ≤ ((rest2.drop (cnt+1)).takeWhile isC3).length ∧
      tail = rest2.take cnt ++ '.' :: ((rest2.drop (cnt+1)).takeWhile isC3).take m := by
  intro rest2 k
  induction k with
  | zero => intro tail h; simp [findK] at h
  | succ j ih =>
    intro tail h
    simp only [findK] at h
    split at h
    next r hr =>
      split at hr
      · split at hr
        next m hm =>
          cases hr
          cases h
          have hb := tryEnd_bounds _ _ _ hm
          exact ⟨j+1, m, by omega, Nat.le_refl _, hb.2, rfl⟩
        next => exact absurd hr (by simp)
      · exact absurd hr (by simp)
    next hr =>
      obtain ⟨cnt, m, h1, h2, h3, h4⟩ := ih tail h
      exact ⟨cnt, m, h1, by omega, h3, h4⟩

/-- Structure of a successful `matchAt` result. -/
lemma matchAt_shape {pw : Bool} {l mm : List Char} (h : matchAt pw l = some mm) :
    ∃ rest2 tail, l.dropWhile isC1 = '@' :: rest2 ∧
      mm = l.takeWhile isC1 ++ '@' :: tail ∧
      findK rest2 (rest2.takeWhile isC2).length = some tail := by
  unfold matchAt at h
  split at h
  · exact absurd h (by simp)
  · split at h
    · exact absurd h (by simp)
    · split at h
      · exact absurd h (by simp)
      next a rest2 hd =>
        split at h
        next ha =>
          split at h
          · exact absurd h (by simp)
          · split at h
            next tail ht =>
              cases h
              exact ⟨rest2, tail, ha ▸ hd, rfl, ht⟩
            next => exact absurd h (by simp)
        next => exact absurd h (by simp)

/-- Every character of a match belongs to one of the pattern's character
classes (or is the literal `@` or dot). -/
lemma matchAt_chars {pw : Bool} {l mm : List Char} (h : matchAt pw l = some mm) :
    ∀ c ∈ mm, isC1 c = true ∨ c = '@' ∨ isC2 c = true ∨ c = '.' ∨ isC3 c = true := by
  obtain ⟨rest2, tail, hd, hmm, hfk⟩ := matchAt_shape h
  obtain ⟨cnt, m, h1, hcnt, hm, htail⟩ := findK_shape _ _ _ hfk
  intro c hc
  rw [hmm] at hc
  rcases List.mem_append.mp hc with h2 | h2
  · exact Or.inl (List.mem_takeWhile_imp h2)
  · rcases List.mem_cons.mp h2 with rfl | h3
    · exact Or.inr (Or.inl rfl)
    · rw [htail] at h3
      rcases List.mem_append.mp h3 with h4 | h5
      · have htk : rest2.take cnt = (rest2.takeWhile isC2).take cnt := by
          conv_lhs => rw [← List.takeWhile_append_dropWhile isC2 rest2,
            List.take_append_of_le_length hcnt]
        rw [htk] at h4
        exact Or.inr (Or.inr (Or.inl
          (List.mem_takeWhile_imp (List.take_subset _ _ h4))))
      · rcases List.mem_cons.mp h5 with rfl | h6
        · exact Or.inr (Or.inr (Or.inr (Or.inl rfl)))
        · exact Or.inr (Or.inr (Or.inr (Or.inr
            (List.mem_takeWhile_imp (List.take_subset _ _ h6)))))

/-- A successful scan comes from a successful `matchAt` somewhere. -/
lemma findFirstMatch_shape : ∀ (pw : Bool) (l m : List Char),
    findFirstMatch pw l = some m → ∃ pw' l', matchAt pw' l' = some m := by
  intro pw l
  induction l generalizing pw with
  | nil => intro m h; simp [findFirstMatch] at h
  | cons c rest ih =>
    intro m h
    rw [findFirstMatch] at h
    cases hm : matchAt pw (c :: rest) with
    | some m' => rw [hm] at h; cases h; exact ⟨pw, c :: rest, hm⟩
    | none => rw [hm] at h; exact ih _ _ h

/-- Python's `strip` is the identity on a string none of whose characters
belong to the strip set. -/
lemma pythonStrip_eq_self {cs l : List Char}
    (h : ∀ c ∈ l, cs.contains c = false) : pythonStrip cs l = l := by
  have h1 : ∀ (l' : List Char), (∀ c ∈ l', cs.contains c = false) →
      l'.dropWhile (cs.contains ·) = l' := by
    intro l' hl'
    cases l' with
    | nil => rfl
    | cons a t =>
      have hnotmem : a ∉ cs := by
        intro hmem
        have hc : cs.contains a = true :=
          List.contains_iff_exists_mem_beq.mpr ⟨a, hmem, by simp⟩
        rw [hl' a (List.mem_cons_self _ _)] at hc
        exact Bool.false_ne_true hc
      exact List.dropWhile_cons_of_neg (by simp [hnotmem])
  unfold pythonStrip
  rw [h1 l h, h1 l.reverse (fun c hc => h c (List.mem_reverse.mp hc)),
    List.reverse_reverse]

/-- C10 amended: whenever the scan finds a match, `extract_email` returns
that raw match verbatim — the terminal `.strip('"<>[]()')` is a no-op
because no strip character can occur inside a match.  (The further claim
that the result always re-matches the pattern standalone is refuted by
`stripped_match_not_fullmatch`.) -/
theorem extract_email_returns_raw_match (t : String) (m : List Char)
    (h : findFirstMatch false t.data = some m) :
    extract_email t = some (String.mk m) ∧ pythonStrip stripSet m = m := by
  obtain ⟨pw, l', hm⟩ := findFirstMatch_shape _ _ _ h
  have hchars := matchAt_chars hm
  have hdisj : ∀ c ∈ m, stripSet.contains c = false := by
    intro c hc
    have hstrip : ∀ x ∈ stripSet,
        isC1 x = false ∧ isC2 x = false ∧ isC3 x = false ∧ x ≠ '@' ∧ x ≠ '.' := by
      decide
    cases hb : stripSet.contains c with
    | false => rfl
    | true =>
      have hmem : c ∈ stripSet := by
        have := List.contains_iff_exists_mem_beq.mp hb
        obtain ⟨x, hx, hbeq⟩ := this
        exact (beq_iff_eq.mp hbeq) ▸ hx
      obtain ⟨e1, e2, e3, e4, e5⟩ := hstrip c hmem
      rcases hchars c hc with h1 | h1 | h1 | h1 | h1 <;> simp_all
  have hnoop : pythonStrip stripSet m = m := pythonStrip_eq_self hdisj
  refine ⟨?_, hnoop⟩
  unfold extract_email
  rw [h]
  show some (String.mk (pythonStrip stripSet m)) = some (String.mk m)
  rw [hnoop]

/-- Closed instance of `extract_email_returns_raw_match`. -/
theorem extract_email_returns_raw_match_witness :
    extract_email "x a@b.cd x" = some (String.mk "a@b.cd".data) ∧
    pythonStrip stripSet "a@b.cd".data = "a@b.cd".data :=
  extract_email_returns_raw_match "x a@b.cd x" "a@b.cd".data (by decide)

/-- C10 counterexample: on `"a@b.cd|5"` the extractor returns `"a@b.cd|"`
(the raw match, stripping unchanged), but that string does NOT fully match
the email pattern standalone — it is not of the form local@domain.tld,
since its trailing `|` fails the closing `\b` at end of string. -/
theorem stripped_match_not_fullmatch :
    extract_email "a@b.cd|5" = some "a@b.cd|" ∧
    findFirstMatch false "a@b.cd|5".data = some "a@b.cd|".data ∧
    fullmatchEmail "a@b.cd|".data = false := by decide
